import Mathlib

/-!
Verification development for the `wh3_db_to_lua` repository
(`src/wh3_db_to_lua/tsv_to_lua.py`).

The Python source is shallowly embedded: pure functions become Lean
functions, Python `str` becomes `String`, Python lists become `List`,
fallible code (assertions, exceptions) returns `Option`/`Except`, and
Python dictionaries of string keys become association lists with
overwrite-on-insert semantics.  The two places where the source touches
IEEE-754 binary64 arithmetic (`float(v)`, `str(float(v))`, `int(f)`)
are abstracted into a `PyFloat` structure whose round-trip properties
appear as explicit hypotheses of the theorems that need them; every
other operation (including MD5) is embedded concretely and executably.
-/

set_option maxRecDepth 40000

namespace WH3

/-! ### Python string primitives -/

/-- Python `str.strip()` restricted to the ASCII whitespace that can occur
in the tool's input lines (space, tab, CR, LF): drop whitespace from both
ends of the character list. -/
def stripChars (l : List Char) : List Char :=
  ((l.dropWhile Char.isWhitespace).reverse.dropWhile Char.isWhitespace).reverse

/-- Python `line.strip()` as used by `_file_iterator`. -/
def pyStrip (s : String) : String :=
  String.mk (stripChars s.toList)

/-- Helper for `pySplitTab`: split a character list at tab characters,
keeping empty pieces (Python `str.split('\t')` semantics). -/
def splitTabAux : List Char → List Char → List String
  | [], acc => [String.mk acc.reverse]
  | c :: rest, acc =>
    if c = '\t' then String.mk acc.reverse :: splitTabAux rest []
    else splitTabAux rest (c :: acc)

/-- Python `tsv_line.split('\t')`. -/
def pySplitTab (s : String) : List String :=
  splitTabAux s.toList []

/-- Python `delim.join(parts)`. -/
def joinSep (sep : String) : List String → String
  | [] => ""
  | [x] => x
  | x :: rest => x ++ sep ++ joinSep sep rest

/-- Python `''.join(parts)`. -/
def joinAll (l : List String) : String := joinSep "" l

/-- Numeric value of a decimal digit string, as computed by Python
`int(digits)` on a nonempty string of digits. -/
def digitsNat (s : String) : Nat :=
  s.toList.foldl (fun n c => 10 * n + (c.toNat - 48)) 0

/-- Lexicographic code-point comparison of character lists: the order Python
uses when comparing `str` values (`a <= b`). -/
def charListLe : List Char → List Char → Bool
  | [], _ => true
  | _ :: _, [] => false
  | a :: as, b :: bs => if a = b then charListLe as bs else decide (a < b)

/-- Python string comparison `a <= b` as a relation on `String`. -/
def strLe (a b : String) : Prop := charListLe a.toList b.toList = true

instance : DecidableRel strLe := fun _ _ => instDecidableEqBool _ _

/-- Python `sorted(strings)`: ascending lexicographic (code-point) sort. -/
def sortStrings (l : List String) : List String :=
  List.insertionSort strLe l

/-! ### MD5 (hashlib.md5, executable reference implementation)

`_get_hex_digest` in the source calls `hashlib.md5(s.encode()).hexdigest()`.
The embedding implements MD5 (RFC 1321) over the UTF-8 bytes of the string,
with all arithmetic on `Nat` reduced modulo `2 ^ 32`. -/

/-- UTF-8 encoding of one Unicode code point as a byte list. -/
def utf8BytesOfCode (c : Nat) : List Nat :=
  if c < 0x80 then [c]
  else if c < 0x800 then
    [0xC0 ||| (c >>> 6), 0x80 ||| (c &&& 0x3F)]
  else if c < 0x10000 then
    [0xE0 ||| (c >>> 12), 0x80 ||| ((c >>> 6) &&& 0x3F), 0x80 ||| (c &&& 0x3F)]
  else
    [0xF0 ||| (c >>> 18), 0x80 ||| ((c >>> 12) &&& 0x3F),
     0x80 ||| ((c >>> 6) &&& 0x3F), 0x80 ||| (c &&& 0x3F)]

/-- Python `s.encode()`: the UTF-8 bytes of a string. -/
def strUtf8 (s : String) : List Nat :=
  (s.toList.map (fun c => utf8BytesOfCode c.toNat)).flatten

/-- The 64 MD5 sine-derived round constants. -/
def md5K : List Nat :=
  [0xd76aa478, 0xe8c7b756, 0x242070db, 0xc1bdceee, 0xf57c0faf, 0x4787c62a,
   0xa8304613, 0xfd469501, 0x698098d8, 0x8b44f7af, 0xffff5bb1, 0x895cd7be,
   0x6b901122, 0xfd987193, 0xa679438e, 0x49b40821, 0xf61e2562, 0xc040b340,
   0x265e5a51, 0xe9b6c7aa, 0xd62f105d, 0x2441453, 0xd8a1e681, 0xe7d3fbc8,
   0x21e1cde6, 0xc33707d6, 0xf4d50d87, 0x455a14ed, 0xa9e3e905, 0xfcefa3f8,
   0x676f02d9, 0x8d2a4c8a, 0xfffa3942, 0x8771f681, 0x6d9d6122, 0xfde5380c,
   0xa4beea44, 0x4bdecfa9, 0xf6bb4b60, 0xbebfbc70, 0x289b7ec6, 0xeaa127fa,
   0xd4ef3085, 0x4881d05, 0xd9d4d039, 0xe6db99e5, 0x1fa27cf8, 0xc4ac5665,
   0xf4292244, 0x432aff97, 0xab9423a7, 0xfc93a039, 0x655b59c3, 0x8f0ccc92,
   0xffeff47d, 0x85845dd1, 0x6fa87e4f, 0xfe2ce6e0, 0xa3014314, 0x4e0811a1,
   0xf7537e82, 0xbd3af235, 0x2ad7d2bb, 0xeb86d391]

/-- The MD5 per-round left-rotation amounts. -/
def md5S : List Nat :=
  [7, 12, 17, 22, 7, 12, 17, 22, 7, 12, 17, 22, 7, 12, 17, 22,
   5, 9, 14, 20, 5, 9, 14, 20, 5, 9, 14, 20, 5, 9, 14, 20,
   4, 11, 16, 23, 4, 11, 16, 23, 4, 11, 16, 23, 4, 11, 16, 23,
   6, 10, 15, 21, 6, 10, 15, 21, 6, 10, 15, 21, 6, 10, 15, 21]

/-- Bitwise complement on 32-bit words represented as `Nat`. -/
def bnot32 (x : Nat) : Nat := 0xffffffff ^^^ (x % 2 ^ 32)

/-- Left rotation of a 32-bit word. -/
def rotl32 (x n : Nat) : Nat :=
  (((x % 2 ^ 32) <<< n) ||| ((x % 2 ^ 32) >>> (32 - n))) % 2 ^ 32

/-- Little-endian byte decomposition (`n` bytes) of a natural number. -/
def leBytes : Nat → Nat → List Nat
  | 0, _ => []
  | n + 1, v => (v % 256) :: leBytes n (v / 256)

/-- MD5 padding: append `0x80`, zero-pad to 56 mod 64, then the original
bit length as a 64-bit little-endian quantity. -/
def md5Pad (msg : List Nat) : List Nat :=
  let padLen := (119 - (msg.length % 64)) % 64
  msg ++ [0x80] ++ List.replicate padLen 0 ++ leBytes 8 ((msg.length * 8) % 2 ^ 64)

/-- Group bytes into little-endian 32-bit words (fuel-indexed so the
definition is structurally recursive and kernel-reducible). -/
def toWordsAux : Nat → List Nat → List Nat
  | 0, _ => []
  | _ + 1, [] => []
  | n + 1, b0 :: b1 :: b2 :: b3 :: rest =>
    (b0 + 256 * b1 + 65536 * b2 + 16777216 * b3) :: toWordsAux n rest
  | _ + 1, _ => []

/-- Bytes of one 64-byte chunk as sixteen 32-bit words. -/
def toWords (chunk : List Nat) : List Nat := toWordsAux chunk.length chunk

/-- Split a byte list into 64-byte chunks (fuel-indexed). -/
def chunksAux : Nat → List Nat → List (List Nat)
  | 0, _ => []
  | _ + 1, [] => []
  | n + 1, l => l.take 64 :: chunksAux n (l.drop 64)

/-- The MD5 round mixing function and message-word index for round `i`. -/
def md5F (b c d i : Nat) : Nat × Nat :=
  if i < 16 then ((b &&& c) ||| (bnot32 b &&& d), i)
  else if i < 32 then ((d &&& b) ||| (bnot32 d &&& c), (5 * i + 1) % 16)
  else if i < 48 then ((b ^^^ c) ^^^ d, (3 * i + 5) % 16)
  else (c ^^^ (b ||| bnot32 d), (7 * i) % 16)

/-- One MD5 round applied to the state `(a, b, c, d)`. -/
def md5Round (M : List Nat) (st : Nat × Nat × Nat × Nat) (i : Nat) :
    Nat × Nat × Nat × Nat :=
  let a := st.1
  let b := st.2.1
  let c := st.2.2.1
  let d := st.2.2.2
  let fg := md5F b c d i
  let f := (fg.1 + a + md5K.getD i 0 + M.getD fg.2 0) % 2 ^ 32
  (d, (b + rotl32 f (md5S.getD i 0)) % 2 ^ 32, b, c)

/-- Process one 64-byte chunk: 64 rounds, then add into the running state. -/
def md5Chunk (st : Nat × Nat × Nat × Nat) (chunk : List Nat) :
    Nat × Nat × Nat × Nat :=
  let M := toWords chunk
  let r := (List.range 64).foldl (md5Round M) st
  ((st.1 + r.1) % 2 ^ 32, (st.2.1 + r.2.1) % 2 ^ 32,
   (st.2.2.1 + r.2.2.1) % 2 ^ 32, (st.2.2.2 + r.2.2.2) % 2 ^ 32)

/-- MD5 digest bytes of a byte-list message. -/
def md5Bytes (msg : List Nat) : List Nat :=
  let padded := md5Pad msg
  let st := (chunksAux padded.length padded).foldl md5Chunk
    (0x67452301, 0xefcdab89, 0x98badcfe, 0x10325476)
  leBytes 4 st.1 ++ leBytes 4 st.2.1 ++ leBytes 4 st.2.2.1 ++ leBytes 4 st.2.2.2

/-- Lowercase hexadecimal digit for a value below 16. -/
def hexDigit (n : Nat) : Char :=
  if n < 10 then Char.ofNat (48 + n) else Char.ofNat (87 + n)

/-- Lowercase hex string of a byte list. -/
def toHexStr (bytes : List Nat) : String :=
  String.mk ((bytes.map (fun b => [hexDigit (b / 16 % 16), hexDigit (b % 16)])).flatten)

/-- Source `_get_hex_digest(s)`: `md5(s.encode(), usedforsecurity=False).hexdigest()`. -/
def _get_hex_digest (s : String) : String :=
  toHexStr (md5Bytes (strUtf8 s))

/-! ### Abstract model of Python binary64 floats

The source uses `float(v)`, `str(f)`, `int(f)` and the comparison
`int(f) == f`.  IEEE-754 parsing and shortest round-trip printing are not
shallowly embeddable, so they are abstracted: `F` is the type of float
values and the four operations are parameters.  Theorems that depend on
actual binary64 behaviour take the relevant round-trip facts as
hypotheses. -/

/-- Abstract interface to Python float operations: `parse` is `float(v)`,
`tostr` is `str(f)`, `toint` is `int(f)` (truncation), and `isIntegral f`
is the Python comparison `int(f) == f`. -/
structure PyFloat (F : Type) where
  parse : String → F
  tostr : F → String
  toint : F → Int
  isIntegral : F → Bool

/-- A degenerate concrete instance of the float interface used to
instantiate universally quantified theorems at a concrete model: every
parse result is `()`, printed as the fixed string `out`, never integral. -/
def constFloat (out : String) : PyFloat Unit where
  parse := fun _ => ()
  tostr := fun _ => out
  toint := fun _ => 0
  isIntegral := fun _ => false

/-! ### Heuristic (legacy) value rendering -/

/-- Source `is_int`: full match of `^-?[0-9]+?$`. -/
def is_int (s : String) : Bool :=
  let cs := s.toList
  let ds := if cs.head? = some '-' then cs.tail else cs
  !ds.isEmpty && ds.all Char.isDigit

/-- Source `is_float`: full match of `^(-?[0-9]+)\.([0-9]+)$`, returning the
`int` and `fraction` groups on success (the `int` group carries the sign). -/
def is_float (s : String) : Option (String × String) :=
  let cs := s.toList
  let sign := if cs.head? = some '-' then "-" else ""
  let rest := if cs.head? = some '-' then cs.tail else cs
  let intDigits := rest.takeWhile Char.isDigit
  match rest.dropWhile Char.isDigit with
  | '.' :: fracPart =>
    if intDigits.isEmpty || fracPart.isEmpty || !fracPart.all Char.isDigit then none
    else some (sign ++ String.mk intDigits, String.mk fracPart)
  | _ => none

/-- Source `is_boolean`: full match of `^true$|^false$`. -/
def is_boolean (s : String) : Bool :=
  s == "true" || s == "false"

/-- Source `str_val` template: the Lua long-bracket string literal. -/
def str_val (v : String) : String := "[=[" ++ v ++ "]=]"

/-- Source `_get_shortest_number_repr(match)`: if the fraction digits have
numeric value zero, the `int` group; else `str(float(match.string))`. -/
def _get_shortest_number_repr {F : Type} (PF : PyFloat F)
    (intPart fracPart orig : String) : String :=
  if digitsNat fracPart = 0 then intPart else PF.tostr (PF.parse orig)

/-- Source `_build_value_legacy(value, pos, column)`: positional and pattern
rules in priority order (first field as string, booleans and integers
verbatim, decimals canonicalized, everything else as a string literal). -/
def _build_value_legacy {F : Type} (PF : PyFloat F)
    (value : String) (pos : Nat) (_column : String) : String :=
  if pos = 1 then str_val value
  else if is_boolean value then value
  else if is_int value then value
  else
    match is_float value with
    | some m => _get_shortest_number_repr PF m.1 m.2 value
    | none => str_val value

/-! ### Schema-driven value rendering -/

/-- Type of the per-field value converters (`ValueConverter`). -/
abbrev ValueConverter := String → String

/-- Source `_ret_same_val`. -/
def _ret_same_val : ValueConverter := fun v => v

/-- Source `to_lua_bool`. -/
def to_lua_bool : ValueConverter := _ret_same_val

/-- Source `to_lua_str`. -/
def to_lua_str : ValueConverter := fun v => "[=[" ++ v ++ "]=]"

/-- Source `_get_shortest_repr_without_trailing_zeros(v)`: parse as float,
truncate to int, and return the int when it equals the float exactly,
else the float (a Python `int | float` value, modelled as `Int ⊕ F`). -/
def _get_shortest_repr_without_trailing_zeros {F : Type} (PF : PyFloat F)
    (v : String) : Int ⊕ F :=
  let f := PF.parse v
  if PF.isIntegral f then Sum.inl (PF.toint f) else Sum.inr f

/-- Python `str` applied to an `int | float` value. -/
def pyStrOfNum {F : Type} (PF : PyFloat F) : Int ⊕ F → String
  | Sum.inl i => Int.repr i
  | Sum.inr f => PF.tostr f

/-- Source `to_lua_num`: `str(_get_shortest_repr_without_trailing_zeros(v))`. -/
def to_lua_num {F : Type} (PF : PyFloat F) (v : String) : String :=
  pyStrOfNum PF (_get_shortest_repr_without_trailing_zeros PF v)

/-- Source `RUST_TYPE_TO_LUA` dict, as a lookup from type tags to
converters (`None` for tags with no entry). -/
def RUST_TYPE_TO_LUA {F : Type} (PF : PyFloat F) (t : String) : Option ValueConverter :=
  if t = "Boolean" then some to_lua_bool
  else if t = "ColourRGB" then some to_lua_str
  else if t = "F32" then some (to_lua_num PF)
  else if t = "F64" then some to_lua_str
  else if t = "I32" then some (to_lua_num PF)
  else if t = "I64" then some to_lua_str
  else if t = "OptionalStringU8" then some to_lua_str
  else if t = "StringU8" then some to_lua_str
  else if t = "StringU16" then some to_lua_str
  else none

/-! ### Schema data model and resolution

The schema objects produced by `pyron` are nested Python dicts.  They are
modelled structurally: a `Schema` carries a `definitions` dict from table
names to lists of version-tagged definitions; a field definition carries
the value of `field_def.get('name')` (distinguishing an absent key from a
present value, because the source's diagnostic `print` indexes
`field_def["name"]` and raises `KeyError` when the key is absent) and the
type tag `field_def.get('field_type', {}).get('!__name__')`. -/

/-- A string-keyed Python dict entry for a key that may be absent. -/
inductive PyStrField
  | absent
  | val (s : String)

/-- One entry of a table definition's `fields` list. -/
structure FieldDef where
  name : PyStrField
  field_type : Option String

/-- One version-tagged table definition. -/
structure VersionDef where
  version : Option Int
  fields : Option (List FieldDef)

/-- String-keyed Python dict with insertion order, as an association list. -/
abbrev PyDict (V : Type) := List (String × V)

/-- Python `d[k] = v`: overwrite in place when the key exists, else append. -/
def pyDictInsert {V : Type} (d : PyDict V) (k : String) (v : V) : PyDict V :=
  if d.any (fun p => p.1 == k) then d.map (fun p => if p.1 == k then (k, v) else p)
  else d ++ [(k, v)]

/-- Python `d.get(k)`. -/
def pyDictGet {V : Type} (d : PyDict V) (k : String) : Option V :=
  (d.find? (fun p => p.1 == k)).map Prod.snd

/-- The loaded schema object. -/
structure Schema where
  definitions : PyDict (List VersionDef)

/-- The Python exceptions the schema-resolution code can raise. -/
inductive PyErr
  | keyError

/-- Source `_get_rust_type(field_definition)`. -/
def _get_rust_type (fd : FieldDef) : Option String := fd.field_type

/-- The field loop of `_get_field_conterters`: for each field definition
look up a converter for its type tag and read `field_def.get('name')`; on
a falsy converter or name, print a diagnostic (which raises `KeyError`
when the `name` key is absent) and return `None`; otherwise store the
converter under the field name. -/
def _field_converters_loop {F : Type} (PF : PyFloat F) :
    PyDict ValueConverter → List FieldDef → Except PyErr (Option (PyDict ValueConverter))
  | acc, [] => .ok (some acc)
  | acc, fd :: rest =>
    match (_get_rust_type fd).bind (RUST_TYPE_TO_LUA PF), fd.name with
    | some conv, .val nm =>
      if nm = "" then .ok none
      else _field_converters_loop PF (pyDictInsert acc nm conv) rest
    | _, .absent => .error .keyError
    | _, .val _ => .ok none

/-- Source `_get_field_conterters(schema, table_name, version)`: select the
first definition whose version matches, require a `fields` collection,
build the converter dict, and treat an empty result as failure. -/
def _get_field_conterters {F : Type} (PF : PyFloat F)
    (schema : Schema) (table_name : String) (version : Int) :
    Except PyErr (Option (PyDict ValueConverter)) :=
  match ((pyDictGet schema.definitions table_name).getD []).find?
      (fun vd => vd.version.getD (-99999) == version) with
  | none => .ok none
  | some d =>
    match d.fields with
    | none => .ok none
    | some fl =>
      match _field_converters_loop PF [] fl with
      | .error e => .error e
      | .ok none => .ok none
      | .ok (some cc) => if cc.isEmpty then .ok none else .ok (some cc)

/-- Type of key builders (`LuaKeyBuilder`): 1-based position and column. -/
abbrev LuaKeyBuilder := Nat → String → String

/-- Type of value builders (`LuaValueBuilder`); `none` models the fatal
`assert` in the schema-driven builder. -/
abbrev LuaValueBuilder := String → Nat → String → Option String

/-- The `_dump_value` closure of `_build_value_from_rust_types__factory`:
look up the converter by column name; `assert converter` (modelled as
`none` on failure); apply it. -/
def _dump_value (converters : PyDict ValueConverter) : LuaValueBuilder :=
  fun value _pos column => (pyDictGet converters column).map (fun conv => conv value)

/-- Source `_build_value_from_rust_types__factory(schema, table_name, version)`:
`None` without a schema or converters, else the `_dump_value` closure. -/
def _build_value_from_rust_types__factory {F : Type} (PF : PyFloat F)
    (schema : Option Schema) (table_name : String) (version : Int) :
    Except PyErr (Option LuaValueBuilder) :=
  match schema with
  | none => .ok none
  | some sch =>
    match _get_field_conterters PF sch table_name version with
    | .error e => .error e
    | .ok none => .ok none
    | .ok (some converters) => .ok (some (_dump_value converters))

/-- The legacy value builder used when no schema converters resolve
(total, hence always `some`). -/
def legacyBuilder {F : Type} (PF : PyFloat F) : LuaValueBuilder :=
  fun value pos column => some (_build_value_legacy PF value pos column)

/-! ### Row encoding and table assembly -/

/-- Source `_build_indexed_key`. -/
def _build_indexed_key : LuaKeyBuilder := fun pos _ => "[" ++ toString pos ++ "]"

/-- Source `_build_normal_key`. -/
def _build_normal_key : LuaKeyBuilder := fun _ column => "[\"" ++ column ++ "\"]"

/-- Source `_key_builder_factory(map_columns)`. -/
def _key_builder_factory (map_columns : Bool) : LuaKeyBuilder :=
  if map_columns then _build_normal_key else _build_indexed_key

/-- Source `RecordNDigest` named tuple. -/
structure RecordNDigest where
  record : String
  digest : Option String

/-- The `'{k}={v}'` items of `_dump_as_lua_table`, over
`enumerate(zip(columns, fields), start=1)`. -/
def kvEntries (bk : LuaKeyBuilder) (bv : LuaValueBuilder) :
    Nat → List (String × String) → Option (List String)
  | _, [] => some []
  | i, (column, field) :: rest =>
    match bv field i column, kvEntries bk bv (i + 1) rest with
    | some v, some tail => some ((bk i column ++ "=" ++ v) :: tail)
    | _, _ => none

/-- Source `_dump_as_lua_table(fields)` (closure over columns and the key
and value builders): `'{%s}' % (','.join(lua_table_kv))`. -/
def _dump_as_lua_table (bk : LuaKeyBuilder) (bv : LuaValueBuilder)
    (columns fields : List String) : Option String :=
  (kvEntries bk bv 1 (columns.zip fields)).map
    (fun kvs => "\x7b" ++ joinSep "," kvs ++ "\x7d")

/-- Source `dump_record(tsv_line)`: split on tabs, dump, no digest. -/
def dump_record (bk : LuaKeyBuilder) (bv : LuaValueBuilder)
    (columns : List String) (tsv_line : String) : Option RecordNDigest :=
  (_dump_as_lua_table bk bv columns (pySplitTab tsv_line)).map
    (fun t => { record := t, digest := none })

/-- Source `to_str(field)` (digest helper):
`str(to_lua_num(field) if is_float(field) else field)`. -/
def to_str {F : Type} (PF : PyFloat F) (field : String) : String :=
  if (is_float field).isSome then to_lua_num PF field else field

/-- Source `dump_record_and_calc_md5(tsv_line)`: dump the record and digest
the concatenation of the sorted `to_str` images of the fields. -/
def dump_record_and_calc_md5 {F : Type} (PF : PyFloat F)
    (bk : LuaKeyBuilder) (bv : LuaValueBuilder)
    (columns : List String) (tsv_line : String) : Option RecordNDigest :=
  let fields := pySplitTab tsv_line
  (_dump_as_lua_table bk bv columns fields).map
    (fun t =>
      { record := t
        digest := some (_get_hex_digest (joinAll (sortStrings (fields.map (to_str PF))))) })

/-- Source `_record_dumper_factory(..., calculate_md5)`. -/
def _record_dumper_factory {F : Type} (PF : PyFloat F)
    (bk : LuaKeyBuilder) (bv : LuaValueBuilder) (columns : List String)
    (calculate_md5 : Bool) : String → Option RecordNDigest :=
  if calculate_md5 then dump_record_and_calc_md5 PF bk bv columns
  else dump_record bk bv columns

/-- The `'[{i}] = {record}'` lines of `_dump_records`, 1-based. -/
def recLines : Nat → List RecordNDigest → List String
  | _, [] => []
  | i, r :: rest => ("[" ++ toString i ++ "] = " ++ r.record) :: recLines (i + 1) rest

/-- Source `_dump_records(records, delim)`. -/
def _dump_records (records : List RecordNDigest) (delim : String) : String :=
  joinSep delim (recLines 1 records)

/-- Source `_form_default_lua_table(records)`. -/
def _form_default_lua_table (records : List RecordNDigest) : String :=
  "\x7b\n  " ++ _dump_records records ",\n  " ++ "\n\x7d"

/-- Sequence a list of options (`none` when any element is `none`),
modelling Python code that would raise on a `None` element. -/
def seqOpts {α : Type} : List (Option α) → Option (List α)
  | [] => some []
  | none :: _ => none
  | some x :: rest =>
    match seqOpts rest with
    | some xs => some (x :: xs)
    | none => none

/-- Source `_form_lua_table_with_md5(records)`: aggregate digest over the
sorted concatenation of the per-record digests, then the checksum/records
structure.  `none` models the `TypeError` Python would raise if a record
had no digest. -/
def _form_lua_table_with_md5 (records : List RecordNDigest) : Option String :=
  (seqOpts (records.map RecordNDigest.digest)).map
    (fun digests =>
      "\x7b\n  [\"checksum\"]=\"" ++ _get_hex_digest (joinAll (sortStrings digests)) ++
      "\",\n  [\"records\"]=\x7b\n    " ++ _dump_records records ",\n    " ++ "\n  \x7d\n\x7d")

/-- Source `_table_dumper_factory(calculate_md5)`. -/
def _table_dumper_factory (calculate_md5 : Bool) : List RecordNDigest → Option String :=
  if calculate_md5 then _form_lua_table_with_md5
  else fun records => some (_form_default_lua_table records)

/-- Source `_get_data_builders(...)`: schema-driven value builder when the
factory succeeds, else the legacy one; record dumper and table dumper
selected by `md5`. -/
def _get_data_builders {F : Type} (PF : PyFloat F)
    (schema : Option Schema) (columns : List String)
    (table_name : String) (version : Int) (map_columns calculate_md5 : Bool) :
    Except PyErr ((String → Option RecordNDigest) × (List RecordNDigest → Option String)) :=
  match _build_value_from_rust_types__factory PF schema table_name version with
  | .error e => .error e
  | .ok ovb =>
    .ok (_record_dumper_factory PF (_key_builder_factory map_columns)
          (ovb.getD (legacyBuilder PF)) columns calculate_md5,
         _table_dumper_factory calculate_md5)

/-! ### File conversion -/

/-- Word characters of the `[\w]+` class (ASCII range). -/
def isWordChar (c : Char) : Bool := c.isAlphanum || c = '_'

/-- Source `RPFM_META_PATT` = `^#(?P<table>[\w]+);(?P<version>[\d]+);`
applied with `re.match` (prefix match): the table and version groups on
success. -/
def rpfm_meta_match (s : String) : Option (String × Nat) :=
  match s.toList with
  | '#' :: rest =>
    let w := rest.takeWhile isWordChar
    match rest.dropWhile isWordChar with
    | ';' :: r2 =>
      let d := r2.takeWhile Char.isDigit
      match r2.dropWhile Char.isDigit with
      | ';' :: _ =>
        if w.isEmpty || d.isEmpty then none
        else some (String.mk w, digitsNat (String.mk d))
      | _ => none
    | _ => none
  | _ => none

/-- The ways `tsv_to_lua_table` can fail on a file: the two `assert`
statements, the `TypeError` from matching a missing second line, the
schema `KeyError`, and the fatal `assert` in `_dump_value`. -/
inductive ConvError
  | emptyHeader
  | missingMetaLine
  | invalidMeta
  | schemaKeyError
  | assertionFailed

/-- The stripped line stream delivered by `_file_iterator`: the `i`-th
stripped line of the file, if present. -/
def streamGet (lines : List String) (i : Nat) : Option String :=
  (lines.map pyStrip).get? i

/-- The data-row lines consumed by the `while line := get_next_line()`
loop: stripped lines after the first two, up to the first falsy (empty or
missing) one. -/
def streamRows (lines : List String) : List String :=
  ((lines.map pyStrip).drop 2).takeWhile (fun l => l != "")

/-- Source `tsv_to_lua_table(tsv_file_path, schema, map_columns, md5)` over
the file's raw lines: strip each line, validate the header and metadata
lines, build records from the following lines up to the first falsy one,
and assemble the table (empty string when there are no records). -/
def tsv_to_lua_table {F : Type} (PF : PyFloat F)
    (schema : Option Schema) (map_columns calculate_md5 : Bool)
    (lines : List String) : Except ConvError String :=
  match streamGet lines 0 with
  | none => .error .emptyHeader
  | some columns_line =>
    if columns_line = "" then .error .emptyHeader
    else
      match streamGet lines 1 with
      | none => .error .missingMetaLine
      | some metaLine =>
        match rpfm_meta_match metaLine with
        | none => .error .invalidMeta
        | some tv =>
          match _get_data_builders PF schema (pySplitTab columns_line)
              tv.1 (tv.2 : Int) map_columns calculate_md5 with
          | .error _ => .error .schemaKeyError
          | .ok builders =>
            match seqOpts ((streamRows lines).map builders.1) with
            | none => .error .assertionFailed
            | some records =>
              if records.isEmpty then .ok ""
              else
                match builders.2 records with
                | none => .error .assertionFailed
                | some t => .ok t

/-! ### Spec-side definitions (for refinement statements)

These definitions follow the specification's words rather than the code
and are compared against the source embedding in the theorems below. -/

/-- Modelled from the spec: the numeric-canonicalization rule — "parse as
a 64-bit float, cast to integer; if the integer equals the float exactly,
render the integer; else render the shortest round-tripping decimal float
representation". -/
def specCanonRender {F : Type} (PF : PyFloat F) (v : String) : String :=
  if PF.isIntegral (PF.parse v) then Int.repr (PF.toint (PF.parse v))
  else PF.tostr (PF.parse v)

/-- Modelled from the spec: the per-field digest string — "rendering it
through the numeric-canonicalization rule if it looks like a float and
passing it through unchanged otherwise". -/
def specFieldString {F : Type} (PF : PyFloat F) (v : String) : String :=
  if (is_float v).isSome then specCanonRender PF v else v

/-- The aggregate digest of a list of per-record digests: hash of the
lexicographically sorted, separator-free concatenation. -/
def aggDigest (digests : List String) : String :=
  _get_hex_digest (joinAll (sortStrings digests))

/-- Records paired with present digests, as produced by
`dump_record_and_calc_md5` (whose digest member is never `None`). -/
def mkRecs (rs : List (String × String)) : List RecordNDigest :=
  rs.map (fun p => { record := p.1, digest := some p.2 })

/-- A field definition that cannot contribute a converter: its type tag
has no entry in `RUST_TYPE_TO_LUA`, or its `name` key is absent, or its
name value is falsy (empty). -/
def fieldInvalid {F : Type} (PF : PyFloat F) (fd : FieldDef) : Prop :=
  (_get_rust_type fd).bind (RUST_TYPE_TO_LUA PF) = none
  ∨ fd.name = PyStrField.absent ∨ fd.name = PyStrField.val ""

/-- Test schema: table `t` version 1 whose single field lacks the `name`
key but has a known type tag. -/
def schemaMissingName : Schema :=
  { definitions := [("t", [{ version := some 1,
                             fields := some [{ name := .absent, field_type := some "Boolean" }] }])] }

/-- Test schema: table `t` version 1 whose single field has an unknown
type tag. -/
def schemaBadTag : Schema :=
  { definitions := [("t", [{ version := some 1,
                             fields := some [{ name := .val "id", field_type := some "Nope" }] }])] }

/-- Test schema: table `t` version 1 declaring zero fields. -/
def schemaEmptyFields : Schema :=
  { definitions := [("t", [{ version := some 1, fields := some [] }])] }

/-! ### Order instances for the string comparison used by `sortStrings` -/

instance : IsTotal String strLe where
  total a b := by
    have h : ∀ as bs : List Char, charListLe as bs = true ∨ charListLe bs as = true := by
      intro as
      induction as with
      | nil => intro bs; left; rfl
      | cons a as ih =>
        intro bs
        cases bs with
        | nil => right; rfl
        | cons b bs =>
          by_cases hab : a = b
          · subst hab
            simpa [charListLe] using ih bs
          · rcases lt_or_gt_of_ne hab with hlt | hgt
            · left; simp [charListLe, hab, hlt]
            · right
              have hba : b ≠ a := fun hh => hab hh.symm
              simp [charListLe, hba, hgt]
    exact h a.toList b.toList

instance : IsTrans String strLe where
  trans a b c hab hbc := by
    have h : ∀ x y z : List Char,
        charListLe x y = true → charListLe y z = true → charListLe x z = true := by
      intro x
      induction x with
      | nil => intro y z _ _; rfl
      | cons a as ih =>
        intro y z hxy hyz
        cases y with
        | nil => simp [charListLe] at hxy
        | cons b bs =>
          cases z with
          | nil => simp [charListLe] at hyz
          | cons c cs =>
            by_cases hab2 : a = b
            · subst hab2
              by_cases hac2 : a = c
              · subst hac2
                simp only [charListLe, if_pos rfl] at hxy hyz ⊢
                exact ih bs cs hxy hyz
              · simp only [charListLe, if_neg hac2] at hyz ⊢
                exact hyz
            · simp only [charListLe, if_neg hab2, decide_eq_true_eq] at hxy
              by_cases hbc2 : b = c
              · subst hbc2
                simp only [charListLe, if_neg hab2, decide_eq_true_eq]
                exact hxy
              · simp only [charListLe, if_neg hbc2, decide_eq_true_eq] at hyz
                have hac : a < c := lt_trans hxy hyz
                simp only [charListLe, if_neg (ne_of_lt hac), decide_eq_true_eq]
                exact hac
    exact h a.toList b.toList c.toList hab hbc

instance : IsAntisymm String strLe where
  antisymm a b hab hba := by
    have h : ∀ x y : List Char, charListLe x y = true → charListLe y x = true → x = y := by
      intro x
      induction x with
      | nil =>
        intro y _ hyx
        cases y with
        | nil => rfl
        | cons c cs => simp [charListLe] at hyx
      | cons a as ih =>
        intro y hxy hyx
        cases y with
        | nil => simp [charListLe] at hxy
        | cons b bs =>
          by_cases hab2 : a = b
          · subst hab2
            simp only [charListLe, if_pos rfl] at hxy hyx
            rw [ih bs hxy hyx]
          · have hba2 : b ≠ a := fun hh => hab2 hh.symm
            simp only [charListLe, if_neg hab2, decide_eq_true_eq] at hxy
            simp only [charListLe, if_neg hba2, decide_eq_true_eq] at hyx
            exact absurd hyx (lt_asymm hxy)
    exact String.toList_inj.mp (h a.toList b.toList hab hba)

/-! ### Helper lemmas -/

theorem sortStrings_perm (l : List String) : (sortStrings l).Perm l :=
  List.perm_insertionSort strLe l

theorem sortStrings_eq_of_perm {l l2 : List String} (h : l.Perm l2) :
    sortStrings l = sortStrings l2 :=
  List.eq_of_perm_of_sorted
    ((sortStrings_perm l).trans (h.trans (sortStrings_perm l2).symm))
    (List.sorted_insertionSort strLe l) (List.sorted_insertionSort strLe l2)

theorem seqOpts_mkRecs (rs : List (String × String)) :
    seqOpts ((mkRecs rs).map RecordNDigest.digest) = some (rs.map Prod.snd) := by
  induction rs with
  | nil => rfl
  | cons p rest ih =>
    show seqOpts (some p.2 :: (mkRecs rest).map RecordNDigest.digest)
        = some (p.2 :: rest.map Prod.snd)
    rw [seqOpts, ih]

theorem to_str_eq_specFieldString {F : Type} (PF : PyFloat F) (v : String) :
    to_str PF v = specFieldString PF v := by
  by_cases h : (is_float v).isSome = true
  · simp only [to_str, specFieldString, if_pos h, to_lua_num, pyStrOfNum,
      _get_shortest_repr_without_trailing_zeros, specCanonRender]
    cases hI : PF.isIntegral (PF.parse v) <;> simp [hI]
  · simp [to_str, specFieldString, h]

theorem loop_no_converter_set {F : Type} (PF : PyFloat F) :
    ∀ (fl : List FieldDef) (acc : PyDict ValueConverter),
      (∃ fd ∈ fl, fieldInvalid PF fd) →
      ∀ cc, _field_converters_loop PF acc fl ≠ .ok (some cc) := by
  intro fl
  induction fl with
  | nil =>
    intro acc h cc
    rcases h with ⟨fd, hmem, _⟩
    simp at hmem
  | cons fd rest ih =>
    intro acc h cc
    rcases hconv : (_get_rust_type fd).bind (RUST_TYPE_TO_LUA PF) with _ | conv
    · rcases hname : fd.name with _ | nm
      · simp [_field_converters_loop, hconv, hname]
      · simp [_field_converters_loop, hconv, hname]
    · rcases hname : fd.name with _ | nm
      · simp [_field_converters_loop, hconv, hname]
      · by_cases hnm : nm = ""
        · simp [_field_converters_loop, hconv, hname, hnm]
        · have hrest : ∃ fd2 ∈ rest, fieldInvalid PF fd2 := by
            rcases h with ⟨fd2, hmem, hinv⟩
            rcases List.mem_cons.mp hmem with heq | hmem2
            · subst heq
              rcases hinv with h1 | h1 | h1
              · rw [hconv] at h1; exact absurd h1 (by simp)
              · rw [hname] at h1; exact absurd h1 (by simp)
              · rw [hname] at h1
                injection h1 with h2
                exact absurd h2 hnm
            · exact ⟨fd2, hmem2, hinv⟩
          simp only [_field_converters_loop, hconv, hname, if_neg hnm]
          exact ih (pyDictInsert acc nm conv) hrest cc

theorem zip_take_take {α β : Type} (as : List α) (bs : List β) :
    as.zip bs = (as.take bs.length).zip (bs.take as.length) := by
  induction as generalizing bs with
  | nil => simp
  | cons a as ih =>
    cases bs with
    | nil => simp
    | cons b bs => simp [List.zip_cons_cons, ih]

theorem kvEntries_length (bk : LuaKeyBuilder) (bv : LuaValueBuilder) :
    ∀ (ps : List (String × String)) (i : Nat) (kvs : List String),
      kvEntries bk bv i ps = some kvs → kvs.length = ps.length := by
  intro ps
  induction ps with
  | nil =>
    intro i kvs h
    simp only [kvEntries] at h
    injection h with h2
    rw [← h2]
    rfl
  | cons p rest ih =>
    intro i kvs h
    rcases p with ⟨column, field⟩
    simp only [kvEntries] at h
    rcases hv : bv field i column with _ | v
    · rw [hv] at h; exact absurd h (by simp)
    · rcases ht : kvEntries bk bv (i + 1) rest with _ | tail
      · rw [hv, ht] at h; exact absurd h (by simp)
      · rw [hv, ht] at h
        injection h with h2
        rw [← h2]
        simp [ih (i + 1) tail ht]

theorem kvEntries_total (bk : LuaKeyBuilder) (bv : LuaValueBuilder)
    (hbv : ∀ value pos column, (bv value pos column).isSome = true) :
    ∀ (ps : List (String × String)) (i : Nat), (kvEntries bk bv i ps).isSome = true := by
  intro ps
  induction ps with
  | nil => intro i; rfl
  | cons p rest ih =>
    intro i
    rcases p with ⟨column, field⟩
    have h1 := hbv field i column
    rcases hv : bv field i column with _ | v
    · rw [hv] at h1; simp at h1
    · have h2 := ih (i + 1)
      rcases ht : kvEntries bk bv (i + 1) rest with _ | tail
      · rw [ht] at h2; simp at h2
      · simp [kvEntries, hv, ht]

/-! ### Claim theorems -/

/-- Claim C1, counterexample: the claim says the per-record digest hashes
the per-field strings concatenated IN COLUMN ORDER; at the row `b<TAB>a`
the code digests the sorted concatenation `ab`, which differs from the
hash of the column-order concatenation `ba`. -/
theorem record_digest_not_column_order :
    (dump_record_and_calc_md5 (constFloat "") _build_indexed_key
        (legacyBuilder (constFloat "")) ["x", "y"] "b\ta").map RecordNDigest.digest
      ≠ some (some (_get_hex_digest (joinAll
          ((pySplitTab "b\ta").map (specFieldString (constFloat "")))))) := by
  decide

/-- Claim C1, amended: for every row and builders, the per-record digest
(when the record dump succeeds) equals the lowercase-hex MD5 of the UTF-8
bytes of the LEXICOGRAPHICALLY SORTED, separator-free concatenation of the
per-field strings, where each field matching the decimal pattern is
rendered through the numeric-canonicalization rule and every other field
passes through unchanged. -/
theorem record_digest_is_sorted_hash {F : Type} (PF : PyFloat F)
    (bk : LuaKeyBuilder) (bv : LuaValueBuilder) (columns : List String) (line : String) :
    (dump_record_and_calc_md5 PF bk bv columns line).map RecordNDigest.digest
      = (_dump_as_lua_table bk bv columns (pySplitTab line)).map
          (fun _ => some (_get_hex_digest (joinAll (sortStrings
              ((pySplitTab line).map (specFieldString PF)))))) := by
  have hfun : to_str PF = specFieldString PF := funext (to_str_eq_specFieldString PF)
  cases h : _dump_as_lua_table bk bv columns (pySplitTab line) with
  | none => simp [dump_record_and_calc_md5, h]
  | some t => simp [dump_record_and_calc_md5, h, hfun]

/-- Claim C2: in digest mode, assembling nonempty digested records yields a
`checksum` member that is the MD5 of the sorted separator-free
concatenation of the per-record digests together with a `records` member
built from the same ordinal-indexed `_dump_records` sequence as plain
mode, and the aggregate digest is invariant under permutation of the
record list. -/
theorem md5_table_assembly (rs : List (String × String)) (_hne : rs ≠ []) :
    _form_lua_table_with_md5 (mkRecs rs)
      = some ("\x7b\n  [\"checksum\"]=\"" ++ aggDigest (rs.map Prod.snd) ++
          "\",\n  [\"records\"]=\x7b\n    " ++ _dump_records (mkRecs rs) ",\n    " ++
          "\n  \x7d\n\x7d")
    ∧ _form_default_lua_table (mkRecs rs)
      = "\x7b\n  " ++ _dump_records (mkRecs rs) ",\n  " ++ "\n\x7d"
    ∧ ∀ rs2 : List (String × String), rs.Perm rs2 →
        aggDigest (rs.map Prod.snd) = aggDigest (rs2.map Prod.snd) := by
  refine ⟨?_, rfl, ?_⟩
  · simp [_form_lua_table_with_md5, seqOpts_mkRecs, aggDigest]
  · intro rs2 hperm
    unfold aggDigest
    rw [sortStrings_eq_of_perm (hperm.map Prod.snd)]

/-- Witness for C2 at two concrete records and a genuine transposition. -/
theorem md5_table_assembly_witness :
    ([("r1", "d1"), ("r2", "d2")] : List (String × String)) ≠ []
    ∧ aggDigest ([("r1", "d1"), ("r2", "d2")].map Prod.snd)
        = aggDigest ([("r2", "d2"), ("r1", "d1")].map Prod.snd) := by
  refine ⟨by decide, ?_⟩
  exact (md5_table_assembly [("r1", "d1"), ("r2", "d2")] (by decide)).2.2
    [("r2", "d2"), ("r1", "d1")] (by decide)

/-- Claim C3: heuristic rendering of the row `["007", "3.0", "true", "3.50"]`:
the first field is a long-bracket string regardless of content, `3.0`
collapses to `3`, `true` stays unquoted, and `3.50` becomes `3.5` (given
that Python prints `float("3.50")` as `3.5`). -/
theorem heuristic_row_rendering {F : Type} (PF : PyFloat F) (column : String)
    (h35 : PF.tostr (PF.parse "3.50") = "3.5") :
    (∀ v, _build_value_legacy PF v 1 column = str_val v)
    ∧ _build_value_legacy PF "3.0" 2 column = "3"
    ∧ _build_value_legacy PF "true" 3 column = "true"
    ∧ _build_value_legacy PF "3.50" 4 column = "3.5" := by
  refine ⟨fun v => rfl, rfl, rfl, ?_⟩
  have h : _build_value_legacy PF "3.50" 4 column = PF.tostr (PF.parse "3.50") := rfl
  rw [h, h35]

/-- Witness for C3 at a float model that prints the parse of `3.50` as `3.5`. -/
theorem heuristic_row_rendering_witness :
    _build_value_legacy (constFloat "3.5") "007" 1 "c" = str_val "007"
    ∧ _build_value_legacy (constFloat "3.5") "3.0" 2 "c" = "3"
    ∧ _build_value_legacy (constFloat "3.5") "true" 3 "c" = "true"
    ∧ _build_value_legacy (constFloat "3.5") "3.50" 4 "c" = "3.5" := by
  obtain ⟨h1, h2, h3, h4⟩ := heuristic_row_rendering (constFloat "3.5") "c" rfl
  exact ⟨h1 "007", h2, h3, h4⟩

/-- Claim C4, counterexample: when the selected definition contains a field
whose `name` key is absent (with a known type tag), `_get_field_conterters`
does not return `None` — the diagnostic `print` indexes the missing name
key and raises `KeyError`. -/
theorem schema_missing_name_raises :
    _get_field_conterters (constFloat "") schemaMissingName "t" 1
      = .error .keyError
    ∧ _get_field_conterters (constFloat "") schemaMissingName "t" 1 ≠ .ok none := by
  constructor
  · rfl
  · have h0 : _get_field_conterters (constFloat "") schemaMissingName "t" 1
        = Except.error PyErr.keyError := rfl
    rw [h0]
    exact fun hh => Except.noConfusion hh

/-- Claim C4, amended: for every schema, once a definition is selected for
the requested table and version, any invalid field (unknown type tag,
absent name key, or empty name) prevents `_get_field_conterters` from ever
returning a usable converter set (it returns `None` or raises `KeyError`,
never a partial set), and a selected definition with zero fields resolves
to `None`. -/
theorem schema_resolution_invalidation {F : Type} (PF : PyFloat F) (schema : Schema)
    (table_name : String) (version : Int) (d : VersionDef) (fl : List FieldDef)
    (hsel : ((pyDictGet schema.definitions table_name).getD []).find?
        (fun vd => vd.version.getD (-99999) == version) = some d)
    (hfl : d.fields = some fl) :
    ((∃ fd ∈ fl, fieldInvalid PF fd) →
       ∀ cc, _get_field_conterters PF schema table_name version ≠ .ok (some cc))
    ∧ (fl = [] → _get_field_conterters PF schema table_name version = .ok none) := by
  constructor
  · intro hex cc
    simp only [_get_field_conterters, hsel, hfl]
    cases hloop : _field_converters_loop PF [] fl with
    | error e => simp
    | ok oc =>
      cases oc with
      | none => simp
      | some cc2 => exact absurd hloop (loop_no_converter_set PF fl [] hex cc2)
  · intro h
    subst h
    simp only [_get_field_conterters, hsel, hfl]
    rfl

/-- Witness for C4 (amended) at a schema with an unknown type tag and a
schema declaring zero fields. -/
theorem schema_resolution_invalidation_witness :
    _get_field_conterters (constFloat "") schemaBadTag "t" 1 ≠ .ok (some [])
    ∧ _get_field_conterters (constFloat "") schemaEmptyFields "t" 1 = .ok none := by
  constructor
  · exact (schema_resolution_invalidation (constFloat "") schemaBadTag "t" 1
      { version := some 1, fields := some [{ name := .val "id", field_type := some "Nope" }] }
      [{ name := .val "id", field_type := some "Nope" }] rfl rfl).1
      ⟨{ name := .val "id", field_type := some "Nope" }, by simp, Or.inl rfl⟩ []
  · exact (schema_resolution_invalidation (constFloat "") schemaEmptyFields "t" 1
      { version := some 1, fields := some [] } [] rfl rfl).2 rfl

/-- Claim C5: conversion fails with the empty-header format error when the
stripped first line is empty, and with the invalid-metadata format error
when the stripped second line does not match the metadata marker pattern
(both fatal for the file before any row is processed). -/
theorem header_meta_validation {F : Type} (PF : PyFloat F) (schema : Option Schema)
    (mc cm : Bool) (lines : List String) :
    (streamGet lines 0 = some "" →
       tsv_to_lua_table PF schema mc cm lines = .error .emptyHeader)
    ∧ (∀ cl ml, streamGet lines 0 = some cl → cl ≠ "" →
        streamGet lines 1 = some ml → rpfm_meta_match ml = none →
        tsv_to_lua_table PF schema mc cm lines = .error .invalidMeta) := by
  constructor
  · intro h0
    simp only [tsv_to_lua_table, h0]
    rw [if_pos trivial]
  · intro cl ml h0 hne h1 hm
    simp only [tsv_to_lua_table, h0]
    rw [if_neg hne]
    simp only [h1, hm]

/-- Witness for C5 at an empty-header file and a wrong-metadata file. -/
theorem header_meta_validation_witness :
    tsv_to_lua_table (constFloat "") none false false [""] = .error .emptyHeader
    ∧ tsv_to_lua_table (constFloat "") none false false ["id", "junk"]
        = .error .invalidMeta := by
  constructor
  · exact (header_meta_validation (constFloat "") none false false [""]).1 rfl
  · exact (header_meta_validation (constFloat "") none false false ["id", "junk"]).2
      "id" "junk" rfl (by decide) rfl rfl

/-- Claim C6: numeric canonicalization is idempotent — given the binary64
round-trip laws (parsing the printed form of a float recovers the float,
and parsing the printed integer of an integral float recovers the float),
canonicalizing the string form of the canonicalized value yields the same
result as canonicalizing once, for every string matching the decimal
pattern. -/
theorem canon_idempotent {F : Type} (PF : PyFloat F)
    (hstr : ∀ f, PF.parse (PF.tostr f) = f)
    (hint : ∀ f, PF.isIntegral f = true → PF.parse (Int.repr (PF.toint f)) = f)
    (s : String) (_hs : (is_float s).isSome = true) :
    _get_shortest_repr_without_trailing_zeros PF (to_lua_num PF s)
      = _get_shortest_repr_without_trailing_zeros PF s := by
  by_cases hI : PF.isIntegral (PF.parse s) = true
  · have h1 : to_lua_num PF s = Int.repr (PF.toint (PF.parse s)) := by
      simp [to_lua_num, pyStrOfNum, _get_shortest_repr_without_trailing_zeros, hI]
    rw [h1]
    simp [_get_shortest_repr_without_trailing_zeros, hint (PF.parse s) hI, hI]
  · have hI2 : PF.isIntegral (PF.parse s) = false := by simpa using hI
    have h1 : to_lua_num PF s = PF.tostr (PF.parse s) := by
      simp [to_lua_num, pyStrOfNum, _get_shortest_repr_without_trailing_zeros, hI2]
    rw [h1]
    simp [_get_shortest_repr_without_trailing_zeros, hstr (PF.parse s), hI2]

/-- Witness for C6 at a concrete float model satisfying the round-trip laws
and the decimal string `3.50`. -/
theorem canon_idempotent_witness :
    _get_shortest_repr_without_trailing_zeros (constFloat "x")
        (to_lua_num (constFloat "x") "3.50")
      = _get_shortest_repr_without_trailing_zeros (constFloat "x") "3.50" :=
  canon_idempotent (constFloat "x") (fun f => by cases f; rfl)
    (fun _ h => nomatch h) "3.50" (by decide)

/-- Claim C7: a file whose stripped first line is a nonempty header, whose
second line matches the metadata marker, and which yields zero data rows
(builders resolving without a schema crash) converts to the empty string. -/
theorem zero_rows_empty_result {F : Type} (PF : PyFloat F) (schema : Option Schema)
    (mc cm : Bool) (lines : List String) (cl ml : String) (tv : String × Nat)
    (h0 : streamGet lines 0 = some cl) (hne : cl ≠ "")
    (h1 : streamGet lines 1 = some ml)
    (hm : rpfm_meta_match ml = some tv)
    (hb : ∃ bs, _get_data_builders PF schema (pySplitTab cl) tv.1 (tv.2 : Int) mc cm
        = .ok bs)
    (hrows : streamRows lines = []) :
    tsv_to_lua_table PF schema mc cm lines = .ok "" := by
  obtain ⟨bs, hb⟩ := hb
  simp only [tsv_to_lua_table, h0]
  rw [if_neg hne]
  simp only [h1, hm, hb, hrows]
  rfl

/-- Witness for C7 at a header-and-marker-only file without a schema. -/
theorem zero_rows_empty_result_witness :
    tsv_to_lua_table (constFloat "") none false false ["id", "#t;1;"] = .ok "" :=
  zero_rows_empty_result (constFloat "") none false false ["id", "#t;1;"]
    "id" "#t;1;" ("t", 1) rfl (by decide) rfl rfl ⟨_, rfl⟩ rfl

/-- Claim C8: in the heuristic path, for columns `["id", "name"]` and the
row `1<TAB>Alice`, indexed key style yields the record with keys `[1]`,
`[2]` and named key style the record with keys `["id"]`, `["name"]`, the
first column string-quoted in both. -/
theorem key_style_records {F : Type} (PF : PyFloat F) :
    _record_dumper_factory PF (_key_builder_factory false) (legacyBuilder PF)
        ["id", "name"] false "1\tAlice"
      = some { record := "\x7b[1]=[=[1]=],[2]=[=[Alice]=]\x7d", digest := none }
    ∧ _record_dumper_factory PF (_key_builder_factory true) (legacyBuilder PF)
        ["id", "name"] false "1\tAlice"
      = some { record := "\x7b[\"id\"]=[=[1]=],[\"name\"]=[=[Alice]=]\x7d", digest := none } :=
  ⟨rfl, rfl⟩

/-- Claim C9: with a resolved converter set, rendering a value for a column
with no converter entry is the fatal assertion failure (modelled `none`),
and under the precondition that every header column has an entry,
rendering always returns the converter's output (the failure branch is
unreachable). -/
theorem dump_value_missing_column (converters : PyDict ValueConverter)
    (columns : List String) :
    (∀ value pos column, pyDictGet converters column = none →
       _dump_value converters value pos column = none)
    ∧ ((∀ c ∈ columns, (pyDictGet converters c).isSome = true) →
        ∀ c ∈ columns, ∀ value pos,
          _dump_value converters value pos c
              = (pyDictGet converters c).map (fun conv => conv value)
          ∧ (_dump_value converters value pos c).isSome = true) := by
  constructor
  · intro value pos column h
    simp [_dump_value, h]
  · intro hall c hc value pos
    refine ⟨rfl, ?_⟩
    have h1 := hall c hc
    rcases h2 : pyDictGet converters c with _ | conv
    · rw [h2] at h1; simp at h1
    · simp [_dump_value, h2]

/-- Witness for C9 at a one-entry converter set. -/
theorem dump_value_missing_column_witness :
    _dump_value [("id", to_lua_str)] "x" 2 "nope" = none
    ∧ _dump_value [("id", to_lua_str)] "x" 2 "id" = some "[=[x]=]" := by
  have h := dump_value_missing_column [("id", to_lua_str)] ["id"]
  refine ⟨h.1 "x" 2 "nope" rfl, ?_⟩
  have h2 := (h.2 (by intro c hc; rw [List.mem_singleton] at hc; subst hc; rfl)
    "id" (by simp) "x" 2).1
  rw [h2]
  rfl

/-- Claim C10: the row encoder pairs columns with fields positionally and
silently truncates to the shorter list — the dumped record is unchanged by
dropping surplus columns or fields, the entry list has length
`min |columns| |fields|`, and no error arises from a length mismatch when
the value builder is total. -/
theorem row_encoder_truncation (bk : LuaKeyBuilder) (bv : LuaValueBuilder)
    (columns fields : List String) :
    _dump_as_lua_table bk bv columns fields
      = _dump_as_lua_table bk bv (columns.take fields.length) (fields.take columns.length)
    ∧ (∀ kvs, kvEntries bk bv 1 (columns.zip fields) = some kvs →
        kvs.length = min columns.length fields.length)
    ∧ ((∀ value pos column, (bv value pos column).isSome = true) →
        (_dump_as_lua_table bk bv columns fields).isSome = true) := by
  refine ⟨?_, ?_, ?_⟩
  · unfold _dump_as_lua_table
    rw [← zip_take_take]
  · intro kvs h
    rw [kvEntries_length bk bv _ _ _ h, List.length_zip]
  · intro hbv
    unfold _dump_as_lua_table
    have h1 := kvEntries_total bk bv hbv (columns.zip fields) 1
    rcases hk : kvEntries bk bv 1 (columns.zip fields) with _ | kvs
    · rw [hk] at h1; simp at h1
    · simp [hk]

/-- Witness for C10 at three columns and one field. -/
theorem row_encoder_truncation_witness :
    _dump_as_lua_table _build_indexed_key (legacyBuilder (constFloat "")) ["a", "b", "c"] ["x"]
      = _dump_as_lua_table _build_indexed_key (legacyBuilder (constFloat ""))
          (["a", "b", "c"].take (["x"] : List String).length)
          ((["x"] : List String).take (["a", "b", "c"] : List String).length)
    ∧ (_dump_as_lua_table _build_indexed_key (legacyBuilder (constFloat ""))
        ["a", "b", "c"] ["x"]).isSome = true :=
  ⟨(row_encoder_truncation _ _ _ _).1,
   (row_encoder_truncation _ _ _ _).2.2 (fun _ _ _ => rfl)⟩






end WH3
